import Mathlib

/-
A verification model of the BadgerDB buffer manager in src/src/buffer.cpp.

The buffer manager's state (frame descriptor table, page slots, page-identity
index, clock hand, and the file collaborator's observable state) is embedded
as a Lean structure, and each public operation of BufMgr is translated into a
pure state-transition function.  C++ exceptions become explicit Except
results, returned together with the post-exception state (a C++ BufMgr keeps
all mutations already performed when an exception propagates out of a
method).  Every call into the File collaborator is recorded in an event log.
-/

namespace BadgerDB

/-- One observable call to the File collaborator. -/
inductive FileOp where
  | read (fid pno : Nat)
  | write (fid pno content : Nat)
  | alloc (fid pno : Nat)
deriving DecidableEq

/-- Errors; each constructor models one BadgerDB exception type. -/
inductive BufError where
  | BufferExceeded
  | PageNotPinned
  | PagePinned
  | BadBuffer
  | HashNotFound
deriving DecidableEq

deriving instance DecidableEq for Except

/-- Page identity: (file id, page number). -/
abbrev PageKey : Type := Nat × Nat

/-- Frame descriptor (class BufDesc).  `fid = none` models the default File
object held by a descriptor that has never cached a page or has been cleared;
such a descriptor compares unequal to every real file. -/
structure BufDesc where
  frameNo : Nat
  fid : Option Nat
  pageNo : Nat
  valid : Bool
  refbit : Bool
  dirty : Bool
  pinCnt : Nat
deriving DecidableEq

instance : Inhabited BufDesc := ⟨⟨0, none, 0, false, false, false, 0⟩⟩

/-- Modelled from the spec (buffer.h with class BufDesc is not under src/):
`BufDesc::Set(file, pageNo)` marks the frame valid, records the identity and
sets pinCnt = 1, refbit = true, dirty = false. -/
def BufDesc.Set (b : BufDesc) (f pno : Nat) : BufDesc :=
  { b with fid := some f, pageNo := pno, valid := true, refbit := true,
           dirty := false, pinCnt := 1 }

/-- Modelled from the spec (buffer.h with class BufDesc is not under src/):
`BufDesc::clear()` resets the frame to the empty state, dropping its page
identity; the slot number `frameNo` is kept. -/
def BufDesc.clear (b : BufDesc) : BufDesc :=
  { b with fid := none, pageNo := 0, valid := false, refbit := false,
           dirty := false, pinCnt := 0 }

/-- Modelled from the spec (the hash table implementation is not under src/):
lookup in the Page-Identity Index; `none` models HashNotFoundException. -/
def htLookup : List (PageKey × Nat) → PageKey → Option Nat
  | [], _ => none
  | e :: rest, k => if e.1 = k then some e.2 else htLookup rest k

/-- Remove every binding of key `k` (the removal step of `htRemove`). -/
def htErase : List (PageKey × Nat) → PageKey → List (PageKey × Nat)
  | [], _ => []
  | e :: rest, k => if e.1 = k then htErase rest k else e :: htErase rest k

/-- Modelled from the spec: remove fails (`none`, modelling
HashNotFoundException) when the key is absent. -/
def htRemove (ht : List (PageKey × Nat)) (k : PageKey) : Option (List (PageKey × Nat)) :=
  match htLookup ht k with
  | none => none
  | some _ => some (htErase ht k)

/-- Modelled from the spec: insert a new binding.  Every call site in
buffer.cpp inserts a key that a lookup just reported absent, so the
DuplicateKey failure of the spec cannot fire there and is not modelled. -/
def htInsert (ht : List (PageKey × Nat)) (k : PageKey) (v : Nat) : List (PageKey × Nat) :=
  (k, v) :: ht

/-- Association-list lookup used for the modelled file-system state. -/
def assocGet {κ : Type} [DecidableEq κ] : List (κ × Nat) → κ → Option Nat
  | [], _ => none
  | e :: rest, k => if e.1 = k then some e.2 else assocGet rest k

/-- The whole state of one BufMgr instance together with the observable state
of the file collaborator: `disk` maps a page identity to its current on-disk
content (newest binding first), `fileSize` maps a file id to its number of
pages, and `events` logs every File call issued so far. -/
structure BufState where
  numBufs : Nat
  clockHand : Nat
  bufDescTable : List BufDesc
  bufPool : List Nat
  hashTable : List (PageKey × Nat)
  disk : List (PageKey × Nat)
  fileSize : List (Nat × Nat)
  events : List FileOp
deriving DecidableEq

/-- The descriptor of frame `i` (bufDescTable[i]). -/
def descAt (s : BufState) (i : Nat) : BufDesc :=
  s.bufDescTable.getD i default

/-- Overwrite the descriptor of frame `i`. -/
def setDesc (s : BufState) (i : Nat) (b : BufDesc) : BufState :=
  { s with bufDescTable := s.bufDescTable.set i b }

/-- BufMgr::advanceClock: clockHand = (clockHand + 1) % numBufs. -/
def advanceClock (s : BufState) : BufState :=
  { s with clockHand := (s.clockHand + 1) % s.numBufs }

/-- Current content of page (fid, pno) on disk (what File::readPage returns). -/
def diskRead (s : BufState) (fid pno : Nat) : Nat :=
  (assocGet s.disk (fid, pno)).getD 0

/-- File::readPage as seen by the buffer manager: returns the on-disk bytes
and logs the read. -/
def fileReadPage (s : BufState) (fid pno : Nat) : Nat × BufState :=
  (diskRead s fid pno, { s with events := s.events ++ [FileOp.read fid pno] })

/-- File::writePage: overwrites the on-disk page and logs the write. -/
def fileWritePage (s : BufState) (fid pno content : Nat) : BufState :=
  { s with disk := ((fid, pno), content) :: s.disk,
           events := s.events ++ [FileOp.write fid pno content] }

/-- File::allocatePage: creates a brand-new blank page at the end of the file
and returns its page number. -/
def fileAllocatePage (s : BufState) (fid : Nat) : Nat × BufState :=
  let pno := (assocGet s.fileSize fid).getD 0
  (pno, { s with fileSize := (fid, pno + 1) :: s.fileSize,
                 disk := ((fid, pno), 0) :: s.disk,
                 events := s.events ++ [FileOp.alloc fid pno] })

/-- Number of descriptors with a set refbit (the clock scan clears one per
refbit skip, which bounds the loop). -/
def countRefbits (l : List BufDesc) : Nat :=
  l.countP (fun b => b.refbit)

/-- The while loop of BufMgr::allocBuf (buffer.cpp lines 62-99), one fuel unit
per iteration.  `pinned` is the running `pinned_frame` counter; the loop runs
while `pinned < numBufs` and otherwise the BufferExceededException of lines
102-104 is raised.  Breaks that select a frame return `Except.ok` with the
frame index (`frame = clockHand`, line 107).  A `none` result means the fuel
ran out; the fuel passed by `allocBuf` strictly exceeds the loop's step count,
which shrinks by one with every iteration (a refbit skip clears one refbit, a
pinned observation raises `pinned`), so `none` is unreachable there. -/
def allocBufLoop : Nat → Nat → BufState → Option ((Except BufError Nat) × BufState)
  | 0, _, _ => none
  | fuel + 1, pinned, s =>
    if pinned < s.numBufs then
      let s1 := advanceClock s
      let bd := descAt s1 s1.clockHand
      if bd.valid = false then
        some (Except.ok s1.clockHand, s1)
      else if bd.refbit = true then
        allocBufLoop fuel pinned (setDesc s1 s1.clockHand { bd with refbit := false })
      else if 0 < bd.pinCnt then
        allocBufLoop fuel (pinned + 1) s1
      else if bd.dirty = true then
        let fid := bd.fid.getD 0
        let s2 := fileWritePage s1 fid bd.pageNo (s1.bufPool.getD s1.clockHand 0)
        match htRemove s2.hashTable (fid, bd.pageNo) with
        | none => some (Except.error BufError.HashNotFound, s2)
        | some ht =>
            some (Except.ok s1.clockHand,
                  setDesc { s2 with hashTable := ht } s1.clockHand (BufDesc.clear bd))
      else
        some (Except.ok s1.clockHand, s1)
    else
      some (Except.error BufError.BufferExceeded, s)

/-- BufMgr::allocBuf.  Note that on a clean (non-dirty) valid victim the
source breaks out of the loop without touching the hash table or the
descriptor: the removal and `clear()` of lines 94-95 sit inside the
`if (buf_desc->dirty)` block. -/
def allocBuf (s : BufState) : Option ((Except BufError Nat) × BufState) :=
  allocBufLoop (s.numBufs + s.bufDescTable.length + 1) 0 s

/-- BufMgr::readPage.  The successful result carries the frame index whose
pool slot the returned Page pointer aliases. -/
def readPage (s : BufState) (fid pno : Nat) : Option ((Except BufError Nat) × BufState) :=
  match htLookup s.hashTable (fid, pno) with
  | some frameId =>
      let bd := descAt s frameId
      some (Except.ok frameId,
            setDesc s frameId { bd with refbit := true, pinCnt := bd.pinCnt + 1 })
  | none =>
      match allocBuf s with
      | none => none
      | some (Except.error e, s1) => some (Except.error e, s1)
      | some (Except.ok frameId, s1) =>
          let rd := fileReadPage s1 fid pno
          let s2 := { rd.2 with bufPool := rd.2.bufPool.set frameId rd.1 }
          let s3 := { s2 with hashTable := htInsert s2.hashTable (fid, pno) frameId }
          some (Except.ok frameId,
                setDesc s3 frameId (BufDesc.Set (descAt s3 frameId) fid pno))

/-- BufMgr::unPinPage.  A failed lookup is caught and ignored; a zero pin
count raises PageNotPinnedException; otherwise the pin count is decremented
and the dirty bit is set when requested (never cleared). -/
def unPinPage (s : BufState) (fid pno : Nat) (markDirty : Bool) :
    (Except BufError Unit) × BufState :=
  match htLookup s.hashTable (fid, pno) with
  | none => (Except.ok (), s)
  | some frameNo =>
      let f := descAt s frameNo
      if f.pinCnt = 0 then (Except.error BufError.PageNotPinned, s)
      else
        let f1 := { f with pinCnt := f.pinCnt - 1 }
        let f2 := if markDirty then { f1 with dirty := true } else f1
        (Except.ok (), setDesc s frameNo f2)

/-- BufMgr::allocPage.  The file collaborator's allocatePage runs first; only
then is a frame requested, the identity inserted, the descriptor Set and the
blank page copied into the pool slot.  The successful result carries the new
page number and the frame index. -/
def allocPage (s : BufState) (fid : Nat) : Option ((Except BufError (Nat × Nat)) × BufState) :=
  let ap := fileAllocatePage s fid
  match allocBuf ap.2 with
  | none => none
  | some (Except.error e, s1) => some (Except.error e, s1)
  | some (Except.ok frameNo, s1) =>
      let s2 := { s1 with hashTable := htInsert s1.hashTable (fid, ap.1) frameNo }
      let s3 := setDesc s2 frameNo (BufDesc.Set (descAt s2 frameNo) fid ap.1)
      let s4 := { s3 with bufPool := s3.bufPool.set frameNo 0 }
      some (Except.ok (ap.1, frameNo), s4)

/-- The scan body of BufMgr::flushFile over the remaining frame indices.  An
error return models a C++ exception aborting the scan with all mutations
already performed kept.  The dirty write-back reproduces the source's
`file.writePage(file.readPage(bd.pageNo))`: it re-reads the current on-disk
page and writes those same bytes back; the buffer pool slot is not used. -/
def flushFrames (fid : Nat) : List Nat → BufState → (Except BufError Unit) × BufState
  | [], s => (Except.ok (), s)
  | i :: rest, s =>
      let bd := descAt s i
      if bd.fid = some fid then
        if 0 < bd.pinCnt then (Except.error BufError.PagePinned, s)
        else if bd.valid = false then (Except.error BufError.BadBuffer, s)
        else
          let s1 :=
            if bd.dirty then
              let rd := fileReadPage s fid bd.pageNo
              setDesc (fileWritePage rd.2 fid bd.pageNo rd.1) i { bd with dirty := false }
            else s
          match htRemove s1.hashTable (fid, bd.pageNo) with
          | none => (Except.error BufError.HashNotFound, s1)
          | some ht =>
              flushFrames fid rest (setDesc { s1 with hashTable := ht } i (BufDesc.clear bd))
      else flushFrames fid rest s

/-- BufMgr::flushFile: scan every frame in ascending index order. -/
def flushFile (s : BufState) (fid : Nat) : (Except BufError Unit) × BufState :=
  flushFrames fid (List.range s.numBufs) s

/-- The range-for of BufMgr::disposePage.  The loop variable is declared
`BufDesc bd` (by value), so the `bd.clear()` of the source mutates a copy and
leaves bufDescTable untouched; only `hashTable.remove` has an effect, and it
runs once for the descriptor whose frameNo matches the looked-up frame. -/
def disposeScan (fid pno frameNo : Nat) :
    List Nat → BufState → (Except BufError Unit) × BufState
  | [], s => (Except.ok (), s)
  | i :: rest, s =>
      if (descAt s i).frameNo = frameNo then
        match htRemove s.hashTable (fid, pno) with
        | none => (Except.error BufError.HashNotFound, s)
        | some ht => disposeScan fid pno frameNo rest { s with hashTable := ht }
      else disposeScan fid pno frameNo rest s

/-- BufMgr::disposePage.  The initial lookup's HashNotFoundException is not
caught and propagates to the caller. -/
def disposePage (s : BufState) (fid pno : Nat) : (Except BufError Unit) × BufState :=
  match htLookup s.hashTable (fid, pno) with
  | none => (Except.error BufError.HashNotFound, s)
  | some frameNo => disposeScan fid pno frameNo (List.range s.numBufs) s

/-- The BufMgr constructor: every frame starts invalid with its slot number
recorded, and the clock hand starts at bufs - 1.  `disk` and `fileSize` seed
the file collaborator's state. -/
def initState (bufs : Nat) (disk : List (PageKey × Nat)) (fileSize : List (Nat × Nat)) :
    BufState :=
  { numBufs := bufs
    clockHand := bufs - 1
    bufDescTable := (List.range bufs).map (fun i => { (default : BufDesc) with frameNo := i })
    bufPool := List.replicate bufs 0
    hashTable := []
    disk := disk
    fileSize := fileSize
    events := [] }

/-- The index entries that reference frame `i`. -/
def entriesFor (s : BufState) (i : Nat) : List (PageKey × Nat) :=
  s.hashTable.filter (fun e => e.2 = i)

/-- The frame/index invariant claimed by the spec: an invalid frame carries no
pin, dirty bit, refbit or index entry; a valid frame has exactly one index
entry, keyed by its recorded identity; and no two entries share a key. -/
def claimInvariant (s : BufState) : Prop :=
  (∀ i ∈ List.range s.numBufs,
    ((descAt s i).valid = false →
      (descAt s i).pinCnt = 0 ∧ (descAt s i).dirty = false ∧
      (descAt s i).refbit = false ∧ entriesFor s i = []) ∧
    ((descAt s i).valid = true →
      (descAt s i).fid ≠ none ∧
      entriesFor s i = [(((descAt s i).fid.getD 0, (descAt s i).pageNo), i)])) ∧
  (s.hashTable.map Prod.fst).Nodup

instance (s : BufState) : Decidable (claimInvariant s) := by
  unfold claimInvariant; infer_instance

/-- Frame `i` currently claims membership of file `fid` (the `bd.file == file`
test of flushFile). -/
def frameMatches (s : BufState) (fid i : Nat) : Prop :=
  (descAt s i).fid = some fid

instance (s : BufState) (fid i : Nat) : Decidable (frameMatches s fid i) := by
  unfold frameMatches; infer_instance

/-- Every frame of the pool is valid and pinned. -/
def allPinned (s : BufState) : Prop :=
  ∀ bd ∈ s.bufDescTable, bd.valid = true ∧ 0 < bd.pinCnt

instance (s : BufState) : Decidable (allPinned s) := by
  unfold allPinned; infer_instance

/-- Two descriptors agreeing on every field except possibly refbit. -/
def sameCore (a b : BufDesc) : Prop :=
  a.frameNo = b.frameNo ∧ a.fid = b.fid ∧ a.pageNo = b.pageNo ∧
  a.valid = b.valid ∧ a.dirty = b.dirty ∧ a.pinCnt = b.pinCnt

/-- `s'` differs from `s` at most in the clock hand and in refbits: the only
state a failing clock scan may touch. -/
def scanQuiet (s s' : BufState) : Prop :=
  s'.numBufs = s.numBufs ∧ s'.bufPool = s.bufPool ∧ s'.hashTable = s.hashTable ∧
  s'.disk = s.disk ∧ s'.fileSize = s.fileSize ∧ s'.events = s.events ∧
  s'.bufDescTable.length = s.bufDescTable.length ∧
  ∀ k, sameCore (descAt s' k) (descAt s k)

/-- A one-frame pool caching page (0,0) of file 0: the start of a concrete
fetch/unpin/dispose run. -/
def c1s0 : BufState := initState 1 [((0, 0), 10)] [(0, 1)]

def c1s1 : BufState := ((readPage c1s0 0 0).getD (Except.error BufError.HashNotFound, c1s0)).2

def c1s2 : BufState := (unPinPage c1s1 0 0 false).2

def c1s3 : BufState := (disposePage c1s2 0 0).2

/-- A one-frame pool whose only frame is a clean, unpinned, refbit-clear valid
victim caching page (4,9) of file 4. -/
def c2s : BufState :=
  { numBufs := 1
    clockHand := 0
    bufDescTable := [⟨0, some 4, 9, true, false, false, 0⟩]
    bufPool := [55]
    hashTable := [((4, 9), 0)]
    disk := []
    fileSize := []
    events := [] }

def c2r : (Except BufError Nat) × BufState :=
  (allocBuf c2s).getD (Except.error BufError.HashNotFound, c2s)

/-- A two-frame pool: frame 0 is pinned (refbit clear), frame 1 is valid and
unpinned but its refbit is set. -/
def c3s : BufState :=
  { numBufs := 2
    clockHand := 1
    bufDescTable := [⟨0, some 1, 0, true, false, false, 1⟩, ⟨1, some 1, 1, true, true, false, 0⟩]
    bufPool := [11, 22]
    hashTable := [((1, 0), 0), ((1, 1), 1)]
    disk := []
    fileSize := []
    events := [] }

def c3r : (Except BufError Nat) × BufState :=
  (allocBuf c3s).getD (Except.error BufError.HashNotFound, c3s)

/-- A one-frame pool holding a dirty, unpinned page (5,3) of file 5 whose
cached content (42) differs from the stale on-disk content (7). -/
def c4s : BufState :=
  { numBufs := 1
    clockHand := 0
    bufDescTable := [⟨0, some 5, 3, true, false, true, 0⟩]
    bufPool := [42]
    hashTable := [((5, 3), 0)]
    disk := [((5, 3), 7)]
    fileSize := [(5, 4)]
    events := [] }

def c4r : (Except BufError Unit) × BufState := flushFile c4s 5

/-- A one-frame pool caching page (7,1) of file 7: the start of a concrete
fetch/unpin/dispose run. -/
def c5s0 : BufState := initState 1 [((7, 1), 3)] [(7, 2)]

def c5s1 : BufState := ((readPage c5s0 7 1).getD (Except.error BufError.HashNotFound, c5s0)).2

def c5s2 : BufState := (unPinPage c5s1 7 1 false).2

def c5s3 : BufState := (disposePage c5s2 7 1).2

/-- A one-frame pool whose single frame is valid and pinned, with its refbit
set. -/
def c7s : BufState :=
  { numBufs := 1
    clockHand := 0
    bufDescTable := [⟨0, some 2, 0, true, true, false, 1⟩]
    bufPool := [9]
    hashTable := [((2, 0), 0)]
    disk := []
    fileSize := []
    events := [] }

def c7r : (Except BufError Nat) × BufState :=
  (allocBuf c7s).getD (Except.error BufError.HashNotFound, c7s)

/-- A one-frame pool whose single frame is valid and pinned (refbit clear),
so that allocPage must fail with BufferExceeded. -/
def c10s : BufState :=
  { numBufs := 1
    clockHand := 0
    bufDescTable := [⟨0, some 2, 0, true, false, false, 1⟩]
    bufPool := [9]
    hashTable := [((2, 0), 0)]
    disk := []
    fileSize := []
    events := [] }

def c10r : (Except BufError (Nat × Nat)) × BufState :=
  (allocPage c10s 9).getD (Except.error BufError.HashNotFound, c10s)

/-- A one-frame pool caching page (3,4) of file 3 with pin count 1: a cache
hit for readPage. -/
def c8hit : BufState :=
  { numBufs := 1
    clockHand := 0
    bufDescTable := [⟨0, some 3, 4, true, false, false, 1⟩]
    bufPool := [99]
    hashTable := [((3, 4), 0)]
    disk := []
    fileSize := []
    events := [] }

def c8hitr : (Except BufError Nat) × BufState :=
  (readPage c8hit 3 4).getD (Except.error BufError.HashNotFound, c8hit)

/-- An empty one-frame pool with page (3,4) of file 3 on disk: a cache miss
for readPage. -/
def c8miss : BufState := initState 1 [((3, 4), 77)] [(3, 5)]

def c8m1 : BufState := advanceClock c8miss

def c8missr : (Except BufError Nat) × BufState :=
  (readPage c8miss 3 4).getD (Except.error BufError.HashNotFound, c8miss)

/-- A two-frame pool with both frames caching pages of file 1: frame 0 is
clean, valid and unpinned, frame 1 is valid and pinned. -/
def c9s : BufState :=
  { numBufs := 2
    clockHand := 0
    bufDescTable := [⟨0, some 1, 0, true, false, false, 0⟩, ⟨1, some 1, 1, true, false, false, 2⟩]
    bufPool := [11, 22]
    hashTable := [((1, 0), 0), ((1, 1), 1)]
    disk := []
    fileSize := []
    events := [] }

/-- A one-frame pool caching page (1,2) of file 1 with pin count 2. -/
def c6s : BufState :=
  { numBufs := 1
    clockHand := 0
    bufDescTable := [⟨0, some 1, 2, true, true, false, 2⟩]
    bufPool := [5]
    hashTable := [((1, 2), 0)]
    disk := []
    fileSize := []
    events := [] }

/-- C1: the claimed reachable-state invariant fails on the code.  Starting
from a fresh one-frame pool, fetchPage then unPinPage reach a state where the
invariant holds, but the following disposePage removes the index entry while
leaving the frame descriptor valid (the source's `bd.clear()` runs on a
by-value loop copy), so a valid frame ends up with no index entry. -/
theorem c1_disposePage_breaks_claimed_invariant :
    readPage c1s0 0 0 = some (Except.ok 0, c1s1) ∧
    unPinPage c1s1 0 0 false = (Except.ok (), c1s2) ∧
    disposePage c1s2 0 0 = (Except.ok (), c1s3) ∧
    claimInvariant c1s2 ∧ ¬ claimInvariant c1s3 ∧
    (descAt c1s3 0).valid = true ∧ entriesFor c1s3 0 = [] := by
  decide

/-- C2: when the clock scan selects a clean eviction victim, allocBuf returns
the frame without removing its Page-Identity Index entry and without clearing
its descriptor (both actions sit inside the source's `if (buf_desc->dirty)`
block), contradicting the claim that they happen in every case; no write-back
is issued for the clean victim, as claimed. -/
theorem c2_clean_victim_keeps_entry_and_descriptor :
    allocBuf c2s = some (Except.ok 0, c2s) ∧
    (descAt c2s 0).valid = true ∧ (descAt c2s 0).refbit = false ∧
    (descAt c2s 0).pinCnt = 0 ∧ (descAt c2s 0).dirty = false ∧
    htLookup c2r.2.hashTable (4, 9) = some 0 ∧
    (descAt c2r.2 0).valid = true ∧
    c2r.2.events = [] := by
  decide

/-- C3: allocBuf fails with BufferExceeded although frame 1 is valid and
unpinned: frame 1 is skipped once for its set refbit while the pinned frame 0
is counted twice by the `pinned_frame` counter, which then reaches the pool
size.  This refutes the claimed equivalence between failure and all frames
being pinned. -/
theorem c3_bufferExceeded_despite_unpinned_frame :
    (allocBuf c3s).isSome ∧
    c3r.1 = Except.error BufError.BufferExceeded ∧
    (descAt c3s 1).valid = true ∧ (descAt c3s 1).pinCnt = 0 := by
  decide

/-- C4: flushFile's dirty write-back writes the stale on-disk bytes back to
disk (the source flushes `file.readPage(bd.pageNo)`), not the cached buffer
pool content: here the cached content is 42 but the bytes written (and the
resulting disk content) are 7.  The dirty bit, index entry and descriptor are
handled as claimed. -/
theorem c4_flushFile_writes_stale_disk_bytes :
    c4r.1 = Except.ok () ∧
    c4s.bufPool.getD 0 0 = 42 ∧ diskRead c4s 5 3 = 7 ∧
    c4r.2.events = [FileOp.read 5 3, FileOp.write 5 3 7] ∧
    diskRead c4r.2 5 3 = 7 ∧
    descAt c4r.2 0 = BufDesc.clear (descAt c4s 0) ∧
    htLookup c4r.2.hashTable (5, 3) = none := by
  decide

/-- C5: disposePage on a cached page removes the index entry but does not
clear the frame descriptor (the source's `bd.clear()` mutates a by-value loop
copy), so the frame stays valid; on an uncached page it fails with
HashNotFound leaving the state unchanged, as claimed. -/
theorem c5_disposePage_leaves_descriptor_valid :
    readPage c5s0 7 1 = some (Except.ok 0, c5s1) ∧
    unPinPage c5s1 7 1 false = (Except.ok (), c5s2) ∧
    disposePage c5s2 7 1 = (Except.ok (), c5s3) ∧
    htLookup c5s3.hashTable (7, 1) = none ∧
    (descAt c5s3 0).valid = true ∧ (descAt c5s3 0).fid = some 7 ∧
    disposePage c5s3 7 1 = (Except.error BufError.HashNotFound, c5s3) := by
  decide

/-- C6: unPinPage is a silent no-op (state unchanged) when the identity is
absent from the index; fails with PageNotPinned when the identity is present
with pinCount 0; and otherwise decrements pinCount by exactly one and ors the
dirty bit with the markDirty argument, so a set dirty bit is never cleared. -/
theorem c6_unPinPage_spec (s : BufState) (fid pno : Nat) (d : Bool) :
    (htLookup s.hashTable (fid, pno) = none → unPinPage s fid pno d = (Except.ok (), s)) ∧
    (∀ fr, htLookup s.hashTable (fid, pno) = some fr →
      ((descAt s fr).pinCnt = 0 →
        unPinPage s fid pno d = (Except.error BufError.PageNotPinned, s)) ∧
      (0 < (descAt s fr).pinCnt →
        unPinPage s fid pno d =
          (Except.ok (),
           setDesc s fr
             { descAt s fr with pinCnt := (descAt s fr).pinCnt - 1,
                                dirty := (descAt s fr).dirty || d }))) := by
  refine ⟨fun h => by simp [unPinPage, h],
          fun fr h => ⟨fun hp => by simp [unPinPage, h, hp], fun hp => ?_⟩⟩
  have hne : ¬ (descAt s fr).pinCnt = 0 := by omega
  cases d <;> simp [unPinPage, h, hne]

/-- Witness for C6 at a concrete pinned cached page. -/
theorem c6_unPinPage_spec_witness :
    unPinPage c6s 1 2 true =
      (Except.ok (),
       setDesc c6s 0
         { descAt c6s 0 with pinCnt := (descAt c6s 0).pinCnt - 1,
                             dirty := (descAt c6s 0).dirty || true }) :=
  ((c6_unPinPage_spec c6s 1 2 true).2 0 (by decide)).2 (by decide)

theorem getD_set_self {α : Type} (l : List α) (i : Nat) (b d : α) (h : i < l.length) :
    (l.set i b).getD i d = b := by
  induction l generalizing i with
  | nil => simp at h
  | cons x t ih =>
    cases i with
    | zero => rfl
    | succ n => exact ih n (by simpa using h)

theorem getD_set_ne {α : Type} (l : List α) (i j : Nat) (b d : α) (h : i ≠ j) :
    (l.set i b).getD j d = l.getD j d := by
  induction l generalizing i j with
  | nil => rfl
  | cons x t ih =>
    cases i with
    | zero =>
      cases j with
      | zero => exact absurd rfl h
      | succ m => rfl
    | succ n =>
      cases j with
      | zero => rfl
      | succ m => exact ih n m (by omega)

theorem getD_of_length_le {α : Type} (l : List α) (i : Nat) (d : α) (h : l.length ≤ i) :
    l.getD i d = d := by
  induction l generalizing i with
  | nil => cases i <;> rfl
  | cons x t ih =>
    cases i with
    | zero => simp at h
    | succ n => exact ih n (by simpa using h)

theorem getD_mem {α : Type} (l : List α) (i : Nat) (d : α) (h : i < l.length) :
    l.getD i d ∈ l := by
  induction l generalizing i with
  | nil => simp at h
  | cons x t ih =>
    cases i with
    | zero => exact List.mem_cons_self _ _
    | succ n => exact List.mem_cons_of_mem _ (ih n (by simpa using h))

theorem htLookup_erase_self (ht : List (PageKey × Nat)) (k : PageKey) :
    htLookup (htErase ht k) k = none := by
  induction ht with
  | nil => rfl
  | cons e rest ih =>
    by_cases h : e.1 = k
    · simp [htErase, h, ih]
    · simp [htErase, htLookup, h, ih]

theorem htLookup_erase_ne (ht : List (PageKey × Nat)) (k k' : PageKey) (h : k' ≠ k) :
    htLookup (htErase ht k) k' = htLookup ht k' := by
  induction ht with
  | nil => rfl
  | cons e rest ih =>
    show htLookup (if e.1 = k then htErase rest k else e :: htErase rest k) k' =
         (if e.1 = k' then some e.2 else htLookup rest k')
    by_cases he : e.1 = k
    · have hne : ¬ e.1 = k' := fun hh => h (hh.symm.trans he)
      rw [if_pos he, if_neg hne]
      exact ih
    · rw [if_neg he]
      show (if e.1 = k' then some e.2 else htLookup (htErase rest k) k') = _
      by_cases he' : e.1 = k'
      · rw [if_pos he', if_pos he']
      · rw [if_neg he', if_neg he', ih]

theorem htLookup_erase_none (ht : List (PageKey × Nat)) (k k' : PageKey)
    (h : htLookup ht k' = none) : htLookup (htErase ht k) k' = none := by
  by_cases hk : k' = k
  · rw [hk]; exact htLookup_erase_self ht k
  · rw [htLookup_erase_ne ht k k' hk]; exact h

theorem htRemove_of_present (ht : List (PageKey × Nat)) (k : PageKey)
    (h : htLookup ht k ≠ none) : htRemove ht k = some (htErase ht k) := by
  unfold htRemove
  cases hl : htLookup ht k with
  | none => exact absurd hl h
  | some v => rfl

theorem descAt_setDesc_self (s : BufState) (i : Nat) (b : BufDesc)
    (h : i < s.bufDescTable.length) : descAt (setDesc s i b) i = b :=
  getD_set_self _ _ _ _ h

theorem descAt_setDesc_ne (s : BufState) (i j : Nat) (b : BufDesc) (h : i ≠ j) :
    descAt (setDesc s i b) j = descAt s j :=
  getD_set_ne _ _ _ _ _ h

theorem descAt_of_length_le (s : BufState) (i : Nat) (h : s.bufDescTable.length ≤ i) :
    descAt s i = default :=
  getD_of_length_le _ _ _ h

theorem valid_lt_length (s : BufState) (i : Nat) (h : (descAt s i).valid = true) :
    i < s.bufDescTable.length := by
  by_contra hc
  rw [descAt_of_length_le s i (by omega)] at h
  simp [default] at h

theorem frameMatches_lt_length (s : BufState) (fid i : Nat) (h : frameMatches s fid i) :
    i < s.bufDescTable.length := by
  by_contra hc
  rw [frameMatches, descAt_of_length_le s i (by omega)] at h
  simp [default] at h

theorem countRefbits_le_length (l : List BufDesc) : countRefbits l ≤ l.length :=
  List.countP_le_length _

theorem countRefbits_set_false (l : List BufDesc) (i : Nat) (bd : BufDesc)
    (h : i < l.length) (hget : l.getD i default = bd) (hb : bd.refbit = true) :
    countRefbits (l.set i { bd with refbit := false }) + 1 = countRefbits l := by
  induction l generalizing i with
  | nil => simp at h
  | cons x t ih =>
    cases i with
    | zero =>
      have hx : x = bd := hget
      subst hx
      simp [countRefbits, List.countP_cons, hb]
    | succ n =>
      have hrec := ih n (by simpa using h) hget
      cases hxr : x.refbit <;>
        simp [countRefbits, List.countP_cons, hxr] at hrec ⊢ <;> omega

theorem sameCore_refl (a : BufDesc) : sameCore a a :=
  ⟨rfl, rfl, rfl, rfl, rfl, rfl⟩

theorem sameCore_trans {a b c : BufDesc} (h1 : sameCore a b) (h2 : sameCore b c) :
    sameCore a c := by
  obtain ⟨p1, p2, p3, p4, p5, p6⟩ := h1
  obtain ⟨q1, q2, q3, q4, q5, q6⟩ := h2
  exact ⟨p1.trans q1, p2.trans q2, p3.trans q3, p4.trans q4, p5.trans q5, p6.trans q6⟩

theorem scanQuiet_refl (s : BufState) : scanQuiet s s :=
  ⟨rfl, rfl, rfl, rfl, rfl, rfl, rfl, fun _ => sameCore_refl _⟩

theorem scanQuiet_trans {s t u : BufState} (h1 : scanQuiet s t) (h2 : scanQuiet t u) :
    scanQuiet s u := by
  obtain ⟨p1, p2, p3, p4, p5, p6, p7, p8⟩ := h1
  obtain ⟨q1, q2, q3, q4, q5, q6, q7, q8⟩ := h2
  exact ⟨q1.trans p1, q2.trans p2, q3.trans p3, q4.trans p4, q5.trans p5, q6.trans p6,
         q7.trans p7, fun k => sameCore_trans (q8 k) (p8 k)⟩

theorem scanQuiet_advanceClock (s : BufState) : scanQuiet s (advanceClock s) :=
  ⟨rfl, rfl, rfl, rfl, rfl, rfl, rfl, fun _ => sameCore_refl _⟩

theorem scanQuiet_clearRefbit (s : BufState) (i : Nat) (hlen : i < s.bufDescTable.length) :
    scanQuiet s (setDesc s i { descAt s i with refbit := false }) := by
  refine ⟨rfl, rfl, rfl, rfl, rfl, rfl, by simp [setDesc], fun k => ?_⟩
  by_cases hk : i = k
  · subst hk
    rw [descAt_setDesc_self _ _ _ hlen]
    exact ⟨rfl, rfl, rfl, rfl, rfl, rfl⟩
  · rw [descAt_setDesc_ne _ _ _ _ hk]
    exact sameCore_refl _

theorem allocBufLoop_exceeded_quiet :
    ∀ (fuel pinned : Nat) (s s' : BufState),
      allocBufLoop fuel pinned s = some (Except.error BufError.BufferExceeded, s') →
      scanQuiet s s' := by
  intro fuel
  induction fuel with
  | zero =>
    intro pinned s s' h
    exact absurd h (by simp [allocBufLoop])
  | succ fuel ih =>
    intro pinned s s' h
    rw [allocBufLoop] at h
    by_cases hp : pinned < s.numBufs
    · rw [if_pos hp] at h
      simp only [] at h
      by_cases hv : (descAt (advanceClock s) (advanceClock s).clockHand).valid = false
      · rw [if_pos hv] at h
        simp only [Option.some.injEq, Prod.mk.injEq] at h
        exact absurd h.1 (by simp)
      · rw [if_neg hv] at h
        by_cases hr : (descAt (advanceClock s) (advanceClock s).clockHand).refbit = true
        · rw [if_pos hr] at h
          have hval : (descAt (advanceClock s) (advanceClock s).clockHand).valid = true := by
            cases hvv : (descAt (advanceClock s) (advanceClock s).clockHand).valid
            · exact absurd hvv hv
            · rfl
          have hlen : (advanceClock s).clockHand < (advanceClock s).bufDescTable.length :=
            valid_lt_length _ _ hval
          exact scanQuiet_trans
            (scanQuiet_trans (scanQuiet_advanceClock s) (scanQuiet_clearRefbit _ _ hlen))
            (ih _ _ _ h)
        · rw [if_neg hr] at h
          by_cases hpin : 0 < (descAt (advanceClock s) (advanceClock s).clockHand).pinCnt
          · rw [if_pos hpin] at h
            exact scanQuiet_trans (scanQuiet_advanceClock s) (ih _ _ _ h)
          · rw [if_neg hpin] at h
            by_cases hd : (descAt (advanceClock s) (advanceClock s).clockHand).dirty = true
            · rw [if_pos hd] at h
              split at h <;>
                simp only [Option.some.injEq, Prod.mk.injEq] at h <;>
                exact absurd h.1 (by simp)
            · rw [if_neg hd] at h
              simp only [Option.some.injEq, Prod.mk.injEq] at h
              exact absurd h.1 (by simp)
    · rw [if_neg hp] at h
      simp only [Option.some.injEq, Prod.mk.injEq] at h
      rw [← h.2]
      exact scanQuiet_refl s

theorem allocBufLoop_allPinned :
    ∀ (fuel pinned : Nat) (s : BufState),
      s.bufDescTable.length = s.numBufs → allPinned s →
      s.numBufs - pinned + countRefbits s.bufDescTable < fuel →
      ∃ s', allocBufLoop fuel pinned s = some (Except.error BufError.BufferExceeded, s') := by
  intro fuel
  induction fuel with
  | zero =>
    intro pinned s _ _ hf
    omega
  | succ fuel ih =>
    intro pinned s hlen hall hf
    rw [allocBufLoop]
    by_cases hp : pinned < s.numBufs
    · rw [if_pos hp]
      simp only []
      have hhand : (advanceClock s).clockHand < (advanceClock s).bufDescTable.length := by
        show (s.clockHand + 1) % s.numBufs < s.bufDescTable.length
        rw [hlen]
        exact Nat.mod_lt _ (by omega)
      have hmem : descAt (advanceClock s) (advanceClock s).clockHand ∈ s.bufDescTable :=
        getD_mem _ _ _ hhand
      obtain ⟨hval, hpin⟩ := hall _ hmem
      rw [if_neg (by rw [hval]; simp)]
      by_cases hr : (descAt (advanceClock s) (advanceClock s).clockHand).refbit = true
      · rw [if_pos hr]
        apply ih pinned _ ?_ ?_ ?_
        · simpa [setDesc] using hlen
        · intro bd' hmem'
          rcases List.mem_or_eq_of_mem_set hmem' with hin | heq
          · exact hall _ hin
          · subst heq
            exact ⟨hval, hpin⟩
        · have hcnt := countRefbits_set_false (advanceClock s).bufDescTable
            (advanceClock s).clockHand (descAt (advanceClock s) (advanceClock s).clockHand)
            hhand rfl hr
          show (setDesc _ _ _).numBufs - pinned + countRefbits (setDesc _ _ _).bufDescTable < fuel
          simp only [setDesc]
          have e1 : countRefbits (advanceClock s).bufDescTable = countRefbits s.bufDescTable := rfl
          have e2 : (advanceClock s).numBufs = s.numBufs := rfl
          rw [e1] at hcnt
          rw [e2]
          omega
      · rw [if_neg hr]
        rw [if_pos hpin]
        apply ih (pinned + 1) (advanceClock s) hlen hall ?_
        show s.numBufs - (pinned + 1) + countRefbits s.bufDescTable < fuel
        omega
    · rw [if_neg hp]
      exact ⟨s, rfl⟩

theorem allocBuf_exceeded_quiet (s s' : BufState)
    (h : allocBuf s = some (Except.error BufError.BufferExceeded, s')) : scanQuiet s s' :=
  allocBufLoop_exceeded_quiet _ _ _ _ h

theorem allocBuf_allPinned (s : BufState)
    (hlen : s.bufDescTable.length = s.numBufs) (hall : allPinned s) :
    ∃ s', allocBuf s = some (Except.error BufError.BufferExceeded, s') := by
  apply allocBufLoop_allPinned _ 0 s hlen hall
  have := countRefbits_le_length s.bufDescTable
  omega

/-- C7 counterexample: allocBuf on a fully pinned one-frame pool does fail
with BufferExceeded, but it does not leave the frame state exactly as it was:
the frame's set refbit has been cleared by the scan. -/
theorem c7_counterexample_refbit_cleared :
    (allocBuf c7s).isSome ∧
    c7r.1 = Except.error BufError.BufferExceeded ∧
    allPinned c7s ∧
    (descAt c7s 0).refbit = true ∧ (descAt c7r.2 0).refbit = false := by
  decide

/-- C7 (amended): when every frame is valid and pinned, allocBuf fails with
BufferExceeded and leaves every frame's frameNo, identity, valid, dirty and
pinCount unchanged, as well as the index, the pool contents, the disk, the
file sizes and the event log; only the clock hand and refbits may change
(set refbits are cleared by the scan). -/
theorem c7_allPinned_fails_quietly (s : BufState)
    (hlen : s.bufDescTable.length = s.numBufs) (hall : allPinned s) :
    ∃ s', allocBuf s = some (Except.error BufError.BufferExceeded, s') ∧ scanQuiet s s' := by
  obtain ⟨s', hs'⟩ := allocBuf_allPinned s hlen hall
  exact ⟨s', hs', allocBuf_exceeded_quiet s s' hs'⟩

/-- Witness for C7 at a concrete fully pinned pool. -/
theorem c7_allPinned_fails_quietly_witness :
    ∃ s', allocBuf c7s = some (Except.error BufError.BufferExceeded, s') ∧ scanQuiet c7s s' :=
  c7_allPinned_fails_quietly c7s (by decide) (by decide)

/-- C10: whenever allocPage fails with BufferExceeded, the file
collaborator's allocatePage has already run: the file has grown by one blank
page at its old size and that allocatePage call is the only event logged,
while no index entry was inserted, the pool contents are untouched and no
frame descriptor was Set (every descriptor field except possibly refbit is
unchanged). -/
theorem c10_allocPage_creates_page_before_frame (s : BufState) (fid : Nat) :
    ∀ s', allocPage s fid = some (Except.error BufError.BufferExceeded, s') →
      s'.fileSize = (fid, (assocGet s.fileSize fid).getD 0 + 1) :: s.fileSize ∧
      s'.disk = ((fid, (assocGet s.fileSize fid).getD 0), 0) :: s.disk ∧
      s'.events = s.events ++ [FileOp.alloc fid ((assocGet s.fileSize fid).getD 0)] ∧
      s'.hashTable = s.hashTable ∧
      s'.bufPool = s.bufPool ∧
      ∀ k, sameCore (descAt s' k) (descAt s k) := by
  intro s' h
  rw [allocPage] at h
  simp only [] at h
  cases hab : allocBuf (fileAllocatePage s fid).2 with
  | none =>
    rw [hab] at h
    exact absurd h (by simp)
  | some r =>
    obtain ⟨re, s1⟩ := r
    cases re with
    | error e =>
      rw [hab] at h
      simp only [Option.some.injEq, Prod.mk.injEq, Except.error.injEq] at h
      obtain ⟨he, hs1⟩ := h
      subst he
      subst hs1
      have hq := allocBuf_exceeded_quiet _ _ hab
      obtain ⟨q1, q2, q3, q4, q5, q6, q7, q8⟩ := hq
      exact ⟨q5, q4, q6, q3, q2, q8⟩
    | ok fr =>
      rw [hab] at h
      simp only [Option.some.injEq, Prod.mk.injEq] at h
      exact absurd h.1 (by simp)

/-- Witness for C10 at a concrete fully pinned pool: the page is created in
file 9 even though the allocation fails. -/
theorem c10_allocPage_creates_page_before_frame_witness :
    allocPage c10s 9 = some (Except.error BufError.BufferExceeded, c10r.2) ∧
    c10r.2.fileSize = (9, 1) :: c10s.fileSize ∧
    c10r.2.hashTable = c10s.hashTable := by
  have h := c10_allocPage_creates_page_before_frame c10s 9 c10r.2 (by decide)
  exact ⟨by decide, h.1, h.2.2.2.1⟩

/-- C8: on a cache hit (identity present) readPage performs no File call and
leaves the pool slots, index and disk untouched, sets the frame's refbit,
increments its pin count by one and returns the frame of the existing slot;
on a miss (identity absent) it takes the frame allocBuf returns, reads the
page's bytes from the file into that frame's slot, inserts the identity into
the index, and initializes the descriptor via Set: pinCount 1, refbit set,
not dirty, valid, with the identity recorded. -/
theorem c8_readPage_spec (s : BufState) (fid pno : Nat) :
    (∀ fr, htLookup s.hashTable (fid, pno) = some fr → fr < s.bufDescTable.length →
      ∀ r s', readPage s fid pno = some (r, s') →
        r = Except.ok fr ∧
        s'.events = s.events ∧ s'.bufPool = s.bufPool ∧
        s'.hashTable = s.hashTable ∧ s'.disk = s.disk ∧
        descAt s' fr = { descAt s fr with refbit := true, pinCnt := (descAt s fr).pinCnt + 1 } ∧
        (∀ k, k ≠ fr → descAt s' k = descAt s k)) ∧
    (htLookup s.hashTable (fid, pno) = none →
      ∀ fr s1, allocBuf s = some (Except.ok fr, s1) → fr < s1.bufDescTable.length →
        ∀ r s', readPage s fid pno = some (r, s') →
          r = Except.ok fr ∧
          s'.events = s1.events ++ [FileOp.read fid pno] ∧
          s'.bufPool = s1.bufPool.set fr (diskRead s1 fid pno) ∧
          s'.hashTable = htInsert s1.hashTable (fid, pno) fr ∧
          htLookup s'.hashTable (fid, pno) = some fr ∧
          s'.disk = s1.disk ∧
          descAt s' fr = BufDesc.Set (descAt s1 fr) fid pno ∧
          (BufDesc.Set (descAt s1 fr) fid pno).pinCnt = 1 ∧
          (BufDesc.Set (descAt s1 fr) fid pno).refbit = true ∧
          (BufDesc.Set (descAt s1 fr) fid pno).dirty = false ∧
          (BufDesc.Set (descAt s1 fr) fid pno).valid = true ∧
          (BufDesc.Set (descAt s1 fr) fid pno).fid = some fid ∧
          (BufDesc.Set (descAt s1 fr) fid pno).pageNo = pno ∧
          (∀ k, k ≠ fr → descAt s' k = descAt s1 k)) := by
  constructor
  · intro fr hfr hlen r s' hrp
    simp only [readPage, hfr] at hrp
    simp only [Option.some.injEq, Prod.mk.injEq] at hrp
    obtain ⟨hr, hs⟩ := hrp
    subst hr
    subst hs
    refine ⟨rfl, rfl, rfl, rfl, rfl, ?_, ?_⟩
    · exact descAt_setDesc_self s fr _ hlen
    · intro k hk
      exact descAt_setDesc_ne s fr k _ (fun hh => hk hh.symm)
  · intro h0 fr s1 hab hlen r s' hrp
    simp only [readPage, h0, hab] at hrp
    simp only [Option.some.injEq, Prod.mk.injEq] at hrp
    obtain ⟨hr, hs⟩ := hrp
    subst hr
    subst hs
    refine ⟨rfl, rfl, rfl, rfl, ?_, rfl, ?_, rfl, rfl, rfl, rfl, rfl, rfl, ?_⟩
    · show htLookup (htInsert s1.hashTable (fid, pno) fr) (fid, pno) = some fr
      simp [htInsert, htLookup]
    · exact (descAt_setDesc_self _ fr _ hlen).trans rfl
    · intro k hk
      exact (descAt_setDesc_ne _ fr k _ (fun hh => hk hh.symm)).trans rfl

/-- Witness for C8: a concrete cache hit performs no I/O, a concrete miss
logs exactly the disk read. -/
theorem c8_readPage_spec_witness :
    c8hitr.1 = Except.ok 0 ∧ c8hitr.2.events = c8hit.events ∧
    c8missr.1 = Except.ok 0 ∧ c8missr.2.events = c8m1.events ++ [FileOp.read 3 4] := by
  have h1 := (c8_readPage_spec c8hit 3 4).1 0 (by decide) (by decide) c8hitr.1 c8hitr.2 (by decide)
  have h2 := (c8_readPage_spec c8miss 3 4).2 (by decide) 0 c8m1 (by decide) (by decide)
    c8missr.1 c8missr.2 (by decide)
  exact ⟨h1.1, h1.2.1, h2.1, h2.2.1⟩

theorem htRemove_some_eq (ht : List (PageKey × Nat)) (k : PageKey) (l : List (PageKey × Nat))
    (h : htRemove ht k = some l) : l = htErase ht k := by
  unfold htRemove at h
  cases hl : htLookup ht k with
  | none => rw [hl] at h; exact absurd h (by simp)
  | some v => rw [hl] at h; simpa using h.symm

theorem flushFrames_keeps_none (fid : Nat) (k : PageKey) :
    ∀ (is : List Nat) (s : BufState), htLookup s.hashTable k = none →
      htLookup (flushFrames fid is s).2.hashTable k = none := by
  intro is
  induction is with
  | nil => intro s h; exact h
  | cons i rest ih =>
    intro s h
    rw [flushFrames]
    simp only []
    by_cases hm : (descAt s i).fid = some fid
    · rw [if_pos hm]
      by_cases hpin : 0 < (descAt s i).pinCnt
      · rw [if_pos hpin]
        exact h
      · rw [if_neg hpin]
        by_cases hval : (descAt s i).valid = false
        · rw [if_pos hval]
          exact h
        · rw [if_neg hval]
          by_cases hd : (descAt s i).dirty = true
          · rw [if_pos hd]
            cases hrem : htRemove (setDesc (fileWritePage (fileReadPage s fid (descAt s i).pageNo).2
                fid (descAt s i).pageNo (fileReadPage s fid (descAt s i).pageNo).1) i
                { descAt s i with dirty := false }).hashTable (fid, (descAt s i).pageNo) with
            | none => exact h
            | some ht =>
              apply ih
              show htLookup ht k = none
              rw [htRemove_some_eq _ _ _ hrem]
              exact htLookup_erase_none _ _ _ h
          · rw [if_neg hd]
            cases hrem : htRemove s.hashTable (fid, (descAt s i).pageNo) with
            | none => exact h
            | some ht =>
              apply ih
              show htLookup ht k = none
              rw [htRemove_some_eq _ _ _ hrem]
              exact htLookup_erase_none _ _ _ h
    · rw [if_neg hm]
      exact ih s h



theorem htRemove_none_lookup (ht : List (PageKey × Nat)) (k : PageKey)
    (h : htRemove ht k = none) : htLookup ht k = none := by
  unfold htRemove at h
  cases hl : htLookup ht k with
  | none => rfl
  | some v => rw [hl] at h; exact absurd h (by simp)

theorem flushFrames_first_failure (fid : Nat) :
    ∀ (pre : List Nat) (j : Nat) (post : List Nat) (s : BufState),
      pre.Nodup → j ∉ pre →
      (∀ i ∈ pre, frameMatches s fid i →
        (descAt s i).pinCnt = 0 ∧ (descAt s i).valid = true ∧
        htLookup s.hashTable (fid, (descAt s i).pageNo) ≠ none) →
      pre.Pairwise (fun a b => frameMatches s fid a → frameMatches s fid b →
        (descAt s a).pageNo ≠ (descAt s b).pageNo) →
      frameMatches s fid j →
      (0 < (descAt s j).pinCnt ∨ (descAt s j).valid = false) →
      (flushFrames fid (pre ++ j :: post) s).1 =
        (if 0 < (descAt s j).pinCnt then Except.error BufError.PagePinned
         else Except.error BufError.BadBuffer) ∧
      (∀ k, k ∉ pre → descAt (flushFrames fid (pre ++ j :: post) s).2 k = descAt s k) ∧
      (∀ i ∈ pre, frameMatches s fid i →
        descAt (flushFrames fid (pre ++ j :: post) s).2 i = BufDesc.clear (descAt s i) ∧
        htLookup (flushFrames fid (pre ++ j :: post) s).2.hashTable
          (fid, (descAt s i).pageNo) = none) ∧
      (∀ i ∈ pre, ¬ frameMatches s fid i →
        descAt (flushFrames fid (pre ++ j :: post) s).2 i = descAt s i) := by
  intro pre
  induction pre with
  | nil =>
    intro j post s _ _ _ _ hmatch hfail
    rw [List.nil_append, flushFrames]
    simp only []
    have hmatch2 : (descAt s j).fid = some fid := hmatch
    rw [if_pos hmatch2]
    by_cases hpin : 0 < (descAt s j).pinCnt
    · rw [if_pos hpin, if_pos hpin]
      exact ⟨rfl, fun k _ => rfl, fun i hi => absurd hi (List.not_mem_nil i),
             fun i hi => absurd hi (List.not_mem_nil i)⟩
    · have hval : (descAt s j).valid = false := by
        rcases hfail with h | h
        · exact absurd h hpin
        · exact h
      rw [if_neg hpin, if_neg hpin, if_pos hval]
      exact ⟨rfl, fun k _ => rfl, fun i hi => absurd hi (List.not_mem_nil i),
             fun i hi => absurd hi (List.not_mem_nil i)⟩
  | cons i0 pre ih =>
    intro j post s hnodup hjnot hpre hpair hmatch hfail
    obtain ⟨hi0notin, hnodup2⟩ := List.nodup_cons.mp hnodup
    have hji0 : j ≠ i0 := fun hh => hjnot (hh ▸ List.mem_cons_self i0 pre)
    have hjnot2 : j ∉ pre := fun hh => hjnot (List.mem_cons_of_mem i0 hh)
    obtain ⟨hpairhead, hpairtail⟩ := List.pairwise_cons.mp hpair
    rw [List.cons_append]
    by_cases hm : (descAt s i0).fid = some fid
    · obtain ⟨hpin0, hval1, hpres⟩ := hpre i0 (List.mem_cons_self i0 pre) hm
      have hnpin : ¬ 0 < (descAt s i0).pinCnt := by omega
      have hnval : ¬ (descAt s i0).valid = false := by simp [hval1]
      have hlen0 : i0 < s.bufDescTable.length := valid_lt_length s i0 hval1
      obtain ⟨t, hgoal, htdesc, htlen, hthash⟩ :
          ∃ t : BufState,
            (flushFrames fid (i0 :: (pre ++ j :: post)) s =
              match htRemove t.hashTable (fid, (descAt s i0).pageNo) with
              | none => (Except.error BufError.HashNotFound, t)
              | some ht => flushFrames fid (pre ++ j :: post)
                  (setDesc { t with hashTable := ht } i0 (BufDesc.clear (descAt s i0)))) ∧
            (∀ k, k ≠ i0 → descAt t k = descAt s k) ∧
            i0 < t.bufDescTable.length ∧
            t.hashTable = s.hashTable := by
        by_cases hd : (descAt s i0).dirty = true
        · refine ⟨setDesc (fileWritePage (fileReadPage s fid (descAt s i0).pageNo).2
              fid (descAt s i0).pageNo (fileReadPage s fid (descAt s i0).pageNo).1) i0
              { descAt s i0 with dirty := false }, ?_, ?_, ?_, rfl⟩
          · rw [flushFrames]
            simp only []
            rw [if_pos hm, if_neg hnpin, if_neg hnval, if_pos hd]
          · intro k hk
            exact (descAt_setDesc_ne _ _ _ _ (fun hh => hk hh.symm)).trans rfl
          · show i0 < ((fileWritePage (fileReadPage s fid (descAt s i0).pageNo).2
              fid (descAt s i0).pageNo
              (fileReadPage s fid (descAt s i0).pageNo).1).bufDescTable.set i0 _).length
            rw [List.length_set]
            exact hlen0
        · refine ⟨s, ?_, fun k _ => rfl, hlen0, rfl⟩
          rw [flushFrames]
          simp only []
          rw [if_pos hm, if_neg hnpin, if_neg hnval, if_neg hd]
      rw [hgoal]
      cases hrem : htRemove t.hashTable (fid, (descAt s i0).pageNo) with
      | none =>
        have hlt : htLookup t.hashTable (fid, (descAt s i0).pageNo) = none :=
          htRemove_none_lookup _ _ hrem
        rw [hthash] at hlt
        exact absurd hlt hpres
      | some ht =>
        set u : BufState :=
          setDesc { t with hashTable := ht } i0 (BufDesc.clear (descAt s i0)) with hu
        have hu1 : ∀ k, k ≠ i0 → descAt u k = descAt s k := by
          intro k hk
          rw [hu]
          exact (descAt_setDesc_ne _ _ _ _ (fun hh => hk hh.symm)).trans (htdesc k hk)
        have hu2 : descAt u i0 = BufDesc.clear (descAt s i0) := by
          rw [hu]
          exact descAt_setDesc_self _ _ _ htlen
        have hu4 : htLookup u.hashTable (fid, (descAt s i0).pageNo) = none := by
          show htLookup ht (fid, (descAt s i0).pageNo) = none
          rw [htRemove_some_eq _ _ _ hrem]
          exact htLookup_erase_self _ _
        have hik : ∀ i, i ∈ pre → i ≠ i0 := fun i hi hh => hi0notin (hh ▸ hi)
        have hkey : ∀ i ∈ pre, (descAt s i).fid = some fid →
            htLookup u.hashTable (fid, (descAt s i).pageNo) ≠ none := by
          intro i hi hmi
          show htLookup ht (fid, (descAt s i).pageNo) ≠ none
          rw [htRemove_some_eq _ _ _ hrem, hthash]
          have hne : (descAt s i0).pageNo ≠ (descAt s i).pageNo := hpairhead i hi hm hmi
          have hkne : ((fid, (descAt s i).pageNo) : PageKey) ≠ (fid, (descAt s i0).pageNo) :=
            fun hh => hne (congrArg Prod.snd hh).symm
          rw [htLookup_erase_ne _ _ _ hkne]
          exact (hpre i (List.mem_cons_of_mem i0 hi) hmi).2.2
        have hpre2 : ∀ i ∈ pre, frameMatches u fid i →
            (descAt u i).pinCnt = 0 ∧ (descAt u i).valid = true ∧
            htLookup u.hashTable (fid, (descAt u i).pageNo) ≠ none := by
          intro i hi hmi
          have hmi2 : (descAt s i).fid = some fid := by
            rw [← hu1 i (hik i hi)]
            exact hmi
          rw [hu1 i (hik i hi)]
          exact ⟨(hpre i (List.mem_cons_of_mem i0 hi) hmi2).1,
                 (hpre i (List.mem_cons_of_mem i0 hi) hmi2).2.1,
                 hkey i hi hmi2⟩
        have hpair2 : pre.Pairwise (fun a b => frameMatches u fid a → frameMatches u fid b →
            (descAt u a).pageNo ≠ (descAt u b).pageNo) := by
          refine List.Pairwise.imp_of_mem ?_ hpairtail
          intro a b ha hb hR hma hmb
          have hma2 : (descAt s a).fid = some fid := by
            rw [← hu1 a (hik a ha)]
            exact hma
          have hmb2 : (descAt s b).fid = some fid := by
            rw [← hu1 b (hik b hb)]
            exact hmb
          rw [hu1 a (hik a ha), hu1 b (hik b hb)]
          exact hR hma2 hmb2
        have hmatch2 : frameMatches u fid j := by
          show (descAt u j).fid = some fid
          rw [hu1 j hji0]
          exact hmatch
        have hfail2 : 0 < (descAt u j).pinCnt ∨ (descAt u j).valid = false := by
          rw [hu1 j hji0]
          exact hfail
        have hconc := ih j post u hnodup2 hjnot2 hpre2 hpair2 hmatch2 hfail2
        obtain ⟨g1, g2, g3, g4⟩ := hconc
        refine ⟨?_, ?_, ?_, ?_⟩
        · rw [hu1 j hji0] at g1
          exact g1
        · intro k hk
          have hk1 : k ≠ i0 := fun hh => hk (hh ▸ List.mem_cons_self i0 pre)
          have hk2 : k ∉ pre := fun hh => hk (List.mem_cons_of_mem i0 hh)
          exact (g2 k hk2).trans (hu1 k hk1)
        · intro i hi hmi
          rcases List.mem_cons.mp hi with rfl | hi2
          · refine ⟨(g2 i hi0notin).trans hu2, ?_⟩
            exact flushFrames_keeps_none fid _ _ _ hu4
          · have hmi2 : frameMatches u fid i := by
              show (descAt u i).fid = some fid
              rw [hu1 i (hik i hi2)]
              exact hmi
            obtain ⟨ga, gb⟩ := g3 i hi2 hmi2
            rw [hu1 i (hik i hi2)] at ga gb
            exact ⟨ga, gb⟩
        · intro i hi hmi
          rcases List.mem_cons.mp hi with rfl | hi2
          · exact absurd hm hmi
          · have hmi2 : ¬ frameMatches u fid i := by
              intro hh
              apply hmi
              show (descAt s i).fid = some fid
              rw [← hu1 i (hik i hi2)]
              exact hh
            exact (g4 i hi2 hmi2).trans (hu1 i (hik i hi2))
    · rw [flushFrames]
      simp only []
      rw [if_neg hm]
      have hconc := ih j post s hnodup2 hjnot2
        (fun i hi hmi => hpre i (List.mem_cons_of_mem i0 hi) hmi) hpairtail hmatch hfail
      obtain ⟨g1, g2, g3, g4⟩ := hconc
      refine ⟨g1, ?_, ?_, ?_⟩
      · intro k hk
        exact g2 k (fun hh => hk (List.mem_cons_of_mem i0 hh))
      · intro i hi hmi
        rcases List.mem_cons.mp hi with rfl | hi2
        · exact absurd hmi hm
        · exact g3 i hi2 hmi
      · intro i hi hmi
        rcases List.mem_cons.mp hi with rfl | hi2
        · exact g2 i hi0notin
        · exact g4 i hi2 hmi

/-- C9: flushFile fails on the first frame, in ascending frame-index scan
order, that belongs to the file and fails a check: PagePinned when it is
pinned, else BadBuffer when it is not valid (the pin check runs first).  Both
checks run before that frame's dirty bit, index entry or descriptor are
touched, so the failing frame and every later frame are left unmodified,
while the file's frames scanned earlier have been processed: cleared, with
their index entries removed. -/
theorem c9_flushFile_first_failure (s : BufState) (fid j : Nat)
    (hj : j < s.numBufs)
    (hmatch : frameMatches s fid j)
    (hfail : 0 < (descAt s j).pinCnt ∨ (descAt s j).valid = false)
    (hpre : ∀ i, i < j → frameMatches s fid i →
      (descAt s i).pinCnt = 0 ∧ (descAt s i).valid = true ∧
      htLookup s.hashTable (fid, (descAt s i).pageNo) ≠ none)
    (hdist : ∀ a, a < j → ∀ b, b < j → a ≠ b → frameMatches s fid a → frameMatches s fid b →
      (descAt s a).pageNo ≠ (descAt s b).pageNo) :
    ((flushFile s fid).1 =
      (if 0 < (descAt s j).pinCnt then Except.error BufError.PagePinned
       else Except.error BufError.BadBuffer)) ∧
    (∀ k, ¬ k < j → descAt (flushFile s fid).2 k = descAt s k) ∧
    (∀ i, i < j → frameMatches s fid i →
      descAt (flushFile s fid).2 i = BufDesc.clear (descAt s i) ∧
      htLookup (flushFile s fid).2.hashTable (fid, (descAt s i).pageNo) = none) ∧
    (∀ i, i < j → ¬ frameMatches s fid i → descAt (flushFile s fid).2 i = descAt s i) := by
  have hmem : ∀ i : Nat, i ∈ List.range' 0 j ↔ i < j := by
    intro i
    rw [List.mem_range'_1]
    omega
  have hsplit : List.range s.numBufs =
      List.range' 0 j ++ j :: List.range' (j + 1) (s.numBufs - j - 1) := by
    rw [List.range_eq_range']
    rw [show (j :: List.range' (j + 1) (s.numBufs - j - 1) : List Nat) =
        List.range' j (s.numBufs - j) from ?_]
    · rw [show (List.range' j (s.numBufs - j) : List Nat) =
          List.range' (0 + j) (s.numBufs - j) by rw [Nat.zero_add]]
      rw [List.range'_append_1]
      congr 1
      omega
    · rw [show s.numBufs - j = (s.numBufs - j - 1) + 1 by omega, List.range'_succ]
      simp
  have hmain := flushFrames_first_failure fid (List.range' 0 j) j
    (List.range' (j + 1) (s.numBufs - j - 1)) s
    (List.nodup_range' 0 j)
    (fun hh => absurd ((hmem j).mp hh) (Nat.lt_irrefl j))
    (fun i hi hmi => hpre i ((hmem i).mp hi) hmi)
    (by
      refine List.Pairwise.imp_of_mem ?_ (List.pairwise_lt_range' 0 j)
      intro a b ha hb hlt hma hmb
      exact hdist a ((hmem a).mp ha) b ((hmem b).mp hb) (Nat.ne_of_lt hlt) hma hmb)
    hmatch hfail
  rw [flushFile, hsplit]
  obtain ⟨g1, g2, g3, g4⟩ := hmain
  refine ⟨g1, ?_, ?_, ?_⟩
  · intro k hk
    exact g2 k (fun hh => hk ((hmem k).mp hh))
  · intro i hi hmi
    exact g3 i ((hmem i).mpr hi) hmi
  · intro i hi hmi
    exact g4 i ((hmem i).mpr hi) hmi

/-- Witness for C9: with frame 0 of the file clean and unpinned and frame 1
pinned, flushFile fails with PagePinned, frame 0 is cleared with its entry
removed en route, and frame 1 is untouched. -/
theorem c9_flushFile_first_failure_witness :
    (flushFile c9s 1).1 = Except.error BufError.PagePinned ∧
    descAt (flushFile c9s 1).2 0 = BufDesc.clear (descAt c9s 0) ∧
    htLookup (flushFile c9s 1).2.hashTable (1, 0) = none ∧
    descAt (flushFile c9s 1).2 1 = descAt c9s 1 := by
  have h := c9_flushFile_first_failure c9s 1 1 (by decide) (by decide) (by decide)
    (by decide) (by intro a ha b hb hne hma hmb; omega)
  refine ⟨?_, ?_, ?_, h.2.1 1 (by decide)⟩
  · have h1 := h.1
    rw [if_pos (by decide : (0:Nat) < (descAt c9s 1).pinCnt)] at h1
    exact h1
  · exact (h.2.2.1 0 (by decide) (by decide)).1
  · exact (h.2.2.1 0 (by decide) (by decide)).2

end BadgerDB
